import Mathlib

/-!
# Dataflow transfer engine: a shallow embedding

This file embeds the transfer engine of the Dataflow repository
(`app/transfer.py`, `app/database.py`, `app/models.py`) in Lean 4 and
settles the frozen claims about it.

Modelling conventions:
* Python values stored in table cells are modelled by `PyValue`; the
  runtime-kind checks `isinstance(v, int)` / `isinstance(v, float)` are
  modelled by `isIntKind` / `isFloatKind` (a Python `bool` is a subtype of
  `int`, so `isinstance(True, int)` is true).
* A backing database state `DBState` is a list of engine names (the keys
  of `DatabaseManager.engines`) plus an association list from
  (database, table) pairs to their rows.  SQLite constraints are not
  modelled; an insert into an existing table always succeeds, which is the
  behaviour exercised by the transfer flow.
* Fallible adapter calls return `Except String`, the error string being
  the exception message the Python code would raise (`str(e)`).
* `datetime.now()` is modelled by a monotone counter: the transfer gets a
  start tick `t0` and any later `now()` call yields `t0 + 1`.
* The copy loop of `transfer_data` is embedded with fuel recursion; the
  fuel passed by `transfer_data` is `total_records`, which is shown to be
  sufficient whenever `batch_size ≥ 1` (the bound Pydantic enforces).
-/

namespace Dataflow

/-! ## Python runtime values and the schema inferencer (`transfer.py` lines 96-105) -/

/-- A Python runtime value as stored in a table cell. -/
inductive PyValue : Type
  | vBool (b : Bool)
  | vInt (n : Int)
  | vFloat (q : Rat)
  | vStr (s : String)
  | vNone
deriving DecidableEq

/-- `isinstance(v, int)` in Python: true for `int` and for `bool`
(Python's `bool` is a subclass of `int`). -/
def isIntKind : PyValue → Bool
  | .vInt _ => true
  | .vBool _ => true
  | _ => false

/-- `isinstance(v, float)` in Python. -/
def isFloatKind : PyValue → Bool
  | .vFloat _ => true
  | _ => false

/-- The three-way logical column type of the schema inferencer. -/
inductive ColType : Type
  | INTEGER
  | REAL
  | TEXT
deriving DecidableEq

/-- One inferred column type (`transfer.py` lines 100-105): first the
`isinstance(value, int)` check, then `isinstance(value, float)`, else TEXT. -/
def inferColType (v : PyValue) : ColType :=
  if isIntKind v then .INTEGER
  else if isFloatKind v then .REAL
  else .TEXT

/-- A row as a Python dict: an insertion-ordered association list. -/
def Row : Type := List (String × PyValue)

instance : DecidableEq Row := inferInstanceAs (DecidableEq (List (String × PyValue)))

instance : Membership (String × PyValue) Row :=
  inferInstanceAs (Membership (String × PyValue) (List (String × PyValue)))

instance (a : String × PyValue) (r : Row) : Decidable (a ∈ r) :=
  inferInstanceAs (Decidable (a ∈ (show List (String × PyValue) from r)))

/-- Schema inference over the first sample row (`transfer.py` lines 98-105):
one inferred type per column, in the row's key order. -/
def inferSchema (row : Row) : List (String × ColType) :=
  row.map (fun kv => (kv.1, inferColType kv.2))

/-! ## The data model (`models.py`) -/

/-- `TransferConfig` (`models.py`): the four identifiers plus the batch size.
Pydantic validates the identifiers and enforces `batch_size ≥ 1`; those are
caller-side preconditions, stated as hypotheses where a claim needs them. -/
structure TransferConfig : Type where
  source_db : String
  destination_db : String
  source_table : String
  destination_table : String
  batch_size : Nat
deriving DecidableEq

/-- `TransferStatus` (`models.py`): timestamps are clock ticks (`Nat`). -/
structure TransferStatus : Type where
  transfer_id : String
  status : String
  source_table : String
  destination_table : String
  records_transferred : Nat
  total_records : Nat
  started_at : Nat
  completed_at : Option Nat
  error_message : Option String
deriving DecidableEq

/-! ## The database manager (`database.py`) -/

/-- The backing state behind `DatabaseManager`: the set of configured engine
names and, per (database, table) pair, the stored rows. -/
structure DBState : Type where
  engines : List String
  tables : List ((String × String) × List Row)
deriving DecidableEq

/-- First-match lookup in an association list of tables. -/
def lookupEntries : List ((String × String) × List Row) → String × String → Option (List Row)
  | [], _ => none
  | e :: rest, k => if e.1 = k then some e.2 else lookupEntries rest k

/-- Rows of a table, if the table exists in the database. -/
def lookupTable (st : DBState) (db tbl : String) : Option (List Row) :=
  lookupEntries st.tables (db, tbl)

/-- Replace the rows of one (database, table) entry. -/
def setTable (st : DBState) (db tbl : String) (rows : List Row) : DBState :=
  { st with tables := st.tables.map (fun e => if e.1 = (db, tbl) then (e.1, rows) else e) }

/-- Add a fresh empty table (used by `CREATE TABLE IF NOT EXISTS`). -/
def addTable (st : DBState) (db tbl : String) : DBState :=
  { st with tables := st.tables ++ [((db, tbl), [])] }

/-- The single-quote character, used in Python's error messages. -/
def sq : String := String.singleton (Char.ofNat 39)

/-- The `ValueError` message of `DatabaseManager.get_engine` (`database.py`
lines 70-74). -/
def dbNotFoundMsg (db : String) (engines : List String) : String :=
  "Database " ++ sq ++ db ++ sq ++ " not found. Available databases: "
    ++ String.intercalate ", " engines

/-- `DatabaseManager.get_engine`: raises `ValueError` when the database name
is not a key of `self.engines`. -/
def get_engine (st : DBState) (db : String) : Except String Unit :=
  if st.engines.contains db then .ok ()
  else .error (dbNotFoundMsg db st.engines)

/-- The SQLite error message for a query against a missing table. -/
def noSuchTableMsg (tbl : String) : String := "no such table: " ++ tbl

/-- `DatabaseManager.table_exists`: resolves the engine (raising for an
unknown database), then queries `sqlite_master`. -/
def table_exists (st : DBState) (db tbl : String) : Except String Bool :=
  match get_engine st db with
  | .error e => .error e
  | .ok _ => .ok (lookupTable st db tbl).isSome

/-- `DatabaseManager.count_records`: resolves the engine, then
`SELECT COUNT(*)`; SQLite raises if the table is missing. -/
def count_records (st : DBState) (db tbl : String) : Except String Nat :=
  match get_engine st db with
  | .error e => .error e
  | .ok _ =>
    match lookupTable st db tbl with
    | none => .error (noSuchTableMsg tbl)
    | some rows => .ok rows.length

/-- `DatabaseManager.get_table_data`: `SELECT *` with an optional `LIMIT`
clause; Python appends the clause only when `limit` is truthy (not `None`
and nonzero). -/
def get_table_data (st : DBState) (db tbl : String) (limit : Option Nat) :
    Except String (List Row) :=
  match get_engine st db with
  | .error e => .error e
  | .ok _ =>
    match lookupTable st db tbl with
    | none => .error (noSuchTableMsg tbl)
    | some rows =>
      match limit with
      | some n => if n ≠ 0 then .ok (rows.take n) else .ok rows
      | none => .ok rows

/-- `DatabaseManager.insert_batch`: returns 0 on an empty batch without
touching the engine; otherwise resolves the engine and appends the records
to the table, returning `len(records)`.  A missing table is a SQLite
error. -/
def insert_batch (st : DBState) (db tbl : String) (records : List Row) :
    Except String (Nat × DBState) :=
  if records.isEmpty then .ok (0, st)
  else
    match get_engine st db with
    | .error e => .error e
    | .ok _ =>
      match lookupTable st db tbl with
      | none => .error (noSuchTableMsg tbl)
      | some rows => .ok (records.length, setTable st db tbl (rows ++ records))

/-- `DatabaseManager.create_table_from_schema`: `CREATE TABLE IF NOT EXISTS`,
a no-op when the table is already present.  Declared column types do not
constrain the dynamically typed row model, so the schema is not stored. -/
def create_table_from_schema (st : DBState) (db tbl : String)
    (_schema : List (String × ColType)) : Except String DBState :=
  match get_engine st db with
  | .error e => .error e
  | .ok _ =>
    if (lookupTable st db tbl).isSome then .ok st
    else .ok (addTable st db tbl)

/-- The raw paginated `SELECT * ... LIMIT :limit OFFSET :offset` issued by
the copy loop (`transfer.py` lines 120-132) on the already-resolved source
engine. -/
def readPage (st : DBState) (db tbl : String) (limit offs : Nat) :
    Except String (List Row) :=
  match lookupTable st db tbl with
  | none => .error (noSuchTableMsg tbl)
  | some rows => .ok ((rows.drop offs).take limit)

/-! ## The transfer engine (`transfer.py`, `DataTransferService.transfer_data`) -/

/-- One observable adapter interaction issued by `transfer_data`, plus the
engine's own progress updates of `records_transferred` (so that the order
of updates relative to batch inserts is in the trace). -/
inductive AdapterEvent : Type
  | existsCheck (db tbl : String)
  | countCall (db tbl : String)
  | sampleRead (db tbl : String)
  | createCall (db tbl : String)
  | pageRead (db tbl : String) (limit offs : Nat)
  | insertCall (db tbl : String) (n : Nat)
  | progressUpdate (k : Nat)
deriving DecidableEq

/-- Result of the copy loop: final database state, final value of
`records_transferred`, the events of the loop in order, and the message of
the exception that aborted it, if any. -/
structure LoopOut : Type where
  db : DBState
  transferred : Nat
  events : List AdapterEvent
  err : Option String
deriving DecidableEq

/-- The copy loop of `transfer_data` (`transfer.py` lines 118-154):
`while offset < total_records`, read a page from the source, break on an
empty page, otherwise insert it into the destination, add the inserted
count to `records_transferred` and advance `offset` by `batch_size`.
Embedded with fuel; `transfer_data` passes fuel `total_records`, which is
sufficient when `batch_size ≥ 1` (each iteration either breaks or advances
`offset` by at least 1).  On fuel exhaustion the loop exits like the
`offset ≥ total_records` check, which never fires with sufficient fuel. -/
def copyLoop (config : TransferConfig) (total : Nat) :
    Nat → Nat → Nat → DBState → LoopOut
  | 0, _, transferred, db => ⟨db, transferred, [], none⟩
  | fuel + 1, offs, transferred, db =>
    if offs < total then
      let pageEv := AdapterEvent.pageRead config.source_db config.source_table
        config.batch_size offs
      match readPage db config.source_db config.source_table config.batch_size offs with
      | .error e => ⟨db, transferred, [pageEv], some e⟩
      | .ok batch =>
        if batch.isEmpty then ⟨db, transferred, [pageEv], none⟩
        else
          match insert_batch db config.destination_db config.destination_table batch with
          | .error e =>
            ⟨db, transferred,
              [pageEv, .insertCall config.destination_db config.destination_table batch.length],
              some e⟩
          | .ok (n, db1) =>
            let rest := copyLoop config total fuel (offs + config.batch_size)
              (transferred + n) db1
            { rest with
                events := pageEv
                  :: .insertCall config.destination_db config.destination_table n
                  :: .progressUpdate (transferred + n) :: rest.events }
    else ⟨db, transferred, [], none⟩

/-- Outcome of one `transfer_data` call: the returned status, the database
state after the call, the trace of adapter events, the exception message
caught by the `except` handler (if any), and the successive values the
status record takes at suspension points (for reachability claims). -/
structure TransferResult : Type where
  status : TransferStatus
  db : DBState
  events : List AdapterEvent
  caught : Option String
  history : List TransferStatus
deriving DecidableEq

/-- The initial status registered by `transfer_data` (`transfer.py`
lines 45-53). -/
def initialStatus (config : TransferConfig) (tid : String) (t0 : Nat) : TransferStatus :=
  { transfer_id := tid
    status := "running"
    source_table := config.source_table
    destination_table := config.destination_table
    records_transferred := 0
    total_records := 0
    started_at := t0
    completed_at := none
    error_message := none }

/-- The `except` handler (`transfer.py` lines 164-171): mark the same status
record failed, store `str(e)` verbatim, set `completed_at`. -/
def failStatus (s : TransferStatus) (msg : String) (t : Nat) : TransferStatus :=
  { s with status := "failed", error_message := some msg, completed_at := some t }

/-- The terminal success transition (`transfer.py` lines 83-84 and 157-158). -/
def completeStatus (s : TransferStatus) (t : Nat) : TransferStatus :=
  { s with status := "completed", completed_at := some t }

/-- The `ValueError` raised for a missing source table (`transfer.py`
lines 68-71). -/
def sourceMissingMsg (tbl db : String) : String :=
  "Source table " ++ sq ++ tbl ++ sq ++ " does not exist in database " ++ sq ++ db
    ++ sq ++ ". Please check the database and table names and ensure the table exists."

/-- The mid-loop running statuses derivable from the loop events: after each
increment the record is still `running` with the accumulated count. -/
def loopHistory (s : TransferStatus) (events : List AdapterEvent) : List TransferStatus :=
  events.filterMap (fun ev =>
    match ev with
    | .progressUpdate k => some { s with records_transferred := k }
    | _ => none)

/-- The tail of `transfer_data` from the source-engine fetch and the copy
loop onwards (`transfer.py` lines 111-173): obtain the source engine, run
the batched copy loop and build the terminal result (completed, or failed
with the caught message). -/
def loopFinish (config : TransferConfig) (s0 : TransferStatus) (total : Nat)
    (evE : List AdapterEvent) (st1 : DBState) (t0 : Nat) : TransferResult :=
  let s1 := { s0 with total_records := total }
  match get_engine st1 config.source_db with
  | .error e =>
    ⟨failStatus s1 e (t0 + 1), st1, evE, some e, [s0, s1, failStatus s1 e (t0 + 1)]⟩
  | .ok _ =>
    let out := copyLoop config total total 0 0 st1
    let runningHist := loopHistory s1 out.events
    match out.err with
    | some e =>
      let sFail := failStatus { s1 with records_transferred := out.transferred }
        e (t0 + 1)
      ⟨sFail, out.db, evE ++ out.events, some e,
        [s0, s1] ++ runningHist ++ [sFail]⟩
    | none =>
      let sDone := completeStatus { s1 with records_transferred := out.transferred }
        (t0 + 1)
      ⟨sDone, out.db, evE ++ out.events, none,
        [s0, s1] ++ runningHist ++ [sDone]⟩

/-- `DataTransferService.transfer_data` (`transfer.py` lines 31-173), after
the initial registration: the `try` body with its `except` handler.  The
transfer id `tid` abstracts the generated `txn_`-uuid, `t0` the start tick
of the monotone clock.  Every adapter error is caught and converted into a
terminal failed status; the function is total. -/
def transfer_data (st : DBState) (config : TransferConfig) (tid : String)
    (t0 : Nat) : TransferResult :=
  let s0 := initialStatus config tid t0
  let evA := [AdapterEvent.existsCheck config.source_db config.source_table]
  match table_exists st config.source_db config.source_table with
  | .error e => ⟨failStatus s0 e (t0 + 1), st, evA, some e, [s0, failStatus s0 e (t0 + 1)]⟩
  | .ok false =>
    let msg := sourceMissingMsg config.source_table config.source_db
    ⟨failStatus s0 msg (t0 + 1), st, evA, some msg, [s0, failStatus s0 msg (t0 + 1)]⟩
  | .ok true =>
    let evB := evA ++ [AdapterEvent.countCall config.source_db config.source_table]
    match count_records st config.source_db config.source_table with
    | .error e => ⟨failStatus s0 e (t0 + 1), st, evB, some e, [s0, failStatus s0 e (t0 + 1)]⟩
    | .ok total =>
      let s1 := { s0 with total_records := total }
      if total = 0 then
        ⟨completeStatus s1 (t0 + 1), st, evB, none, [s0, completeStatus s1 (t0 + 1)]⟩
      else
        let evC := evB ++ [AdapterEvent.existsCheck config.destination_db config.destination_table]
        match table_exists st config.destination_db config.destination_table with
        | .error e => ⟨failStatus s1 e (t0 + 1), st, evC, some e, [s0, s1, failStatus s1 e (t0 + 1)]⟩
        | .ok destExists =>
          let afterCreate : Except (String × List AdapterEvent) (DBState × List AdapterEvent) :=
            if destExists then .ok (st, evC)
            else
              let evD := evC ++ [AdapterEvent.sampleRead config.source_db config.source_table]
              match get_table_data st config.source_db config.source_table (some 1) with
              | .error e => .error (e, evD)
              | .ok sample =>
                match sample with
                | [] => .ok (st, evD)
                | first :: _ =>
                  let evE := evD ++ [AdapterEvent.createCall config.destination_db
                    config.destination_table]
                  match create_table_from_schema st config.destination_db
                    config.destination_table (inferSchema first) with
                  | .error e => .error (e, evE)
                  | .ok st1 => .ok (st1, evE)
          match afterCreate with
          | .error (e, evErr) =>
            ⟨failStatus s1 e (t0 + 1), st, evErr,
              some e, [s0, s1, failStatus s1 e (t0 + 1)]⟩
          | .ok (st1, evE) => loopFinish config s0 total evE st1 t0

/-! ## The service and its status registry (`transfer.py` lines 17-196)

`DataTransferService.transfers` is a Python dict from transfer id to a
*mutable* `TransferStatus` object.  To capture Python's reference
semantics (the registry and every returned list alias the same objects)
the model keeps a heap of status values indexed by `Nat` references:
`order` is the dict, mapping each id to a heap reference in insertion
order, and observations dereference the heap at read time. -/

/-- The service state: backing databases plus the status registry. -/
structure ServiceState : Type where
  db : DBState
  heap : List TransferStatus
  order : List (String × Nat)
deriving DecidableEq

/-- `self.transfers[transfer_id] = status` on a Python dict: an existing key
keeps its position and gets the new reference; a new key is appended. -/
def dictInsert (order : List (String × Nat)) (tid : String) (ref : Nat) :
    List (String × Nat) :=
  if order.any (fun e => e.1 = tid) then
    order.map (fun e => if e.1 = tid then (e.1, ref) else e)
  else order ++ [(tid, ref)]

/-- Allocate a fresh status object on the heap and register it under its
transfer id (`transfer.py` lines 55-56). -/
def registerStatus (svc : ServiceState) (tid : String) (s : TransferStatus) :
    ServiceState × Nat :=
  ({ svc with heap := svc.heap ++ [s], order := dictInsert svc.order tid svc.heap.length },
    svc.heap.length)

/-- Overwrite the status object behind reference `i`: the model of an
in-place field mutation of the shared record. -/
def writeRef (svc : ServiceState) (i : Nat) (s : TransferStatus) : ServiceState :=
  { svc with heap := svc.heap.set i s }

/-- The engine's in-place progress increment
`status.records_transferred += records_inserted` (`transfer.py`
lines 143-144), acting through the registry's shared reference. -/
def recordProgress (svc : ServiceState) (i : Nat) (n : Nat) : ServiceState :=
  match svc.heap[i]? with
  | some s => writeRef svc i { s with records_transferred := s.records_transferred + n }
  | none => svc

/-- `DataTransferService.transfer_data` as observed through the service:
register the initial status, run the body, and write the final value of the
(in Python, in-place mutated) record back through its reference. -/
def transfer_data_service (svc : ServiceState) (config : TransferConfig)
    (tid : String) (t0 : Nat) : TransferStatus × ServiceState :=
  let s0 := initialStatus config tid t0
  let (svc1, ref) := registerStatus svc tid s0
  let r := transfer_data svc1.db config tid t0
  (r.status, { db := r.db, heap := svc1.heap.set ref r.status, order := svc1.order })

/-- `DataTransferService.get_status`: dict lookup, returning the (aliased)
record's current value or `none`. -/
def get_status (svc : ServiceState) (tid : String) : Option TransferStatus :=
  ((svc.order.find? (fun e => e.1 = tid)).map (·.2)).bind (fun i => svc.heap[i]?)

/-- `DataTransferService.get_all_transfers`: `list(self.transfers.values())`
builds a fresh list object whose elements are references to the shared
status records; the model returns the heap references in dict order. -/
def get_all_transfers (svc : ServiceState) : List Nat :=
  svc.order.map (·.2)

/-- Reading the contents of a previously returned sequence of references
against the current heap. -/
def derefAll (svc : ServiceState) (refs : List Nat) : List (Option TransferStatus) :=
  refs.map (fun i => svc.heap[i]?)

/-! ## Trace projections used by the claims -/

/-- The successive values of `records_transferred` published during a run. -/
def progressValues (events : List AdapterEvent) : List Nat :=
  events.filterMap (fun ev =>
    match ev with
    | .progressUpdate k => some k
    | _ => none)

/-- The sizes of the issued batch inserts, in order. -/
def insertSizes (events : List AdapterEvent) : List Nat :=
  events.filterMap (fun ev =>
    match ev with
    | .insertCall _ _ n => some n
    | _ => none)

/-- Every `records_transferred` update is immediately preceded by the batch
insert that produced it, and increments by exactly the inserted count
(`acc` is the running value before the remaining events). -/
def progressMatchesInserts : Nat → List AdapterEvent → Bool
  | _, [] => true
  | acc, .insertCall _ _ n :: .progressUpdate k :: rest =>
    k = acc + n && progressMatchesInserts k rest
  | _, .progressUpdate _ :: _ => false
  | acc, .insertCall _ _ _ :: rest => progressMatchesInserts acc rest
  | acc, _ :: rest => progressMatchesInserts acc rest

/-! ## Concrete fixtures (used by witnesses and counterexamples) -/

/-- Three one-column sample rows. -/
def rowsEx : List Row := [[("id", .vInt 1)], [("id", .vInt 2)], [("id", .vInt 3)]]

/-- The default backing stores of `DatabaseManager` with a three-row
`users` table in the source database. -/
def stEx : DBState :=
  { engines := ["source", "destination"],
    tables := [(("source", "users"), rowsEx)] }

/-- The default stores with an empty `users` table in the source database. -/
def stEmptyEx : DBState :=
  { engines := ["source", "destination"],
    tables := [(("source", "users"), [])] }

/-- The default stores with no tables at all. -/
def stMissingEx : DBState :=
  { engines := ["source", "destination"], tables := [] }

/-- An ordinary transfer configuration, batch size 2. -/
def cfgEx : TransferConfig :=
  { source_db := "source", destination_db := "destination",
    source_table := "users", destination_table := "users_copy", batch_size := 2 }

/-- A self-transfer: the destination table is the source table. -/
def cfgSelfEx : TransferConfig :=
  { source_db := "source", destination_db := "source",
    source_table := "users", destination_table := "users", batch_size := 2 }

/-- A configuration naming a store unknown to the adapter. -/
def cfgBadEx : TransferConfig :=
  { source_db := "nosuchdb", destination_db := "destination",
    source_table := "users", destination_table := "users_copy", batch_size := 2 }

/-- A sample row holding a Python boolean. -/
def rowBoolEx : Row := [("id", .vInt 7), ("active", .vBool true)]

/-- A fresh service over `stEx`. -/
def svcEx : ServiceState := { db := stEx, heap := [], order := [] }

/-- A running status record, as registered for an in-flight transfer. -/
def runningEx : TransferStatus :=
  { transfer_id := "txn_r"
    status := "running"
    source_table := "users"
    destination_table := "users_copy"
    records_transferred := 0
    total_records := 3
    started_at := 0
    completed_at := none
    error_message := none }

/-- A service holding one in-flight transfer record. -/
def svcOneEx : ServiceState :=
  { db := stEx, heap := [runningEx], order := [("txn_r", 0)] }

/-! ## Basic lemmas about the database state -/

theorem engines_setTable (st : DBState) (db tbl : String) (rows : List Row) :
    (setTable st db tbl rows).engines = st.engines := rfl

theorem engines_addTable (st : DBState) (db tbl : String) :
    (addTable st db tbl).engines = st.engines := rfl

theorem lookupEntries_map_set_ne (l : List ((String × String) × List Row))
    (k1 k2 : String × String) (rows : List Row) (h : k1 ≠ k2) :
    lookupEntries (l.map (fun e => if e.1 = k2 then (e.1, rows) else e)) k1
      = lookupEntries l k1 := by
  induction l with
  | nil => rfl
  | cons e t ih =>
    by_cases he2 : e.1 = k2
    · have hne : ¬ e.1 = k1 := by
        rw [he2]
        exact fun hk => h (hk.symm)
      simp [lookupEntries, he2, hne, Ne.symm h, ih]
    · simp only [List.map_cons, if_neg he2, lookupEntries]
      by_cases he1 : e.1 = k1
      · simp [he1]
      · simp [he1, ih]

theorem lookupEntries_map_set_self (l : List ((String × String) × List Row))
    (k : String × String) (rows v : List Row) (h : lookupEntries l k = some v) :
    lookupEntries (l.map (fun e => if e.1 = k then (e.1, rows) else e)) k = some rows := by
  induction l with
  | nil => simp [lookupEntries] at h
  | cons e t ih =>
    by_cases he : e.1 = k
    · simp [lookupEntries, he]
    · simp only [lookupEntries, if_neg he] at h
      simp [lookupEntries, he, ih h]

theorem lookupEntries_append (l1 l2 : List ((String × String) × List Row))
    (k : String × String) :
    lookupEntries (l1 ++ l2) k = (lookupEntries l1 k).or (lookupEntries l2 k) := by
  induction l1 with
  | nil => simp [lookupEntries]
  | cons e t ih =>
    by_cases he : e.1 = k
    · simp [lookupEntries, he]
    · simp [lookupEntries, he, ih]

theorem lookupTable_setTable_ne (st : DBState) (db1 t1 db2 t2 : String)
    (rows : List Row) (h : (db1, t1) ≠ (db2, t2)) :
    lookupTable (setTable st db2 t2 rows) db1 t1 = lookupTable st db1 t1 :=
  lookupEntries_map_set_ne st.tables (db1, t1) (db2, t2) rows h

theorem lookupTable_setTable_self (st : DBState) (db tbl : String)
    (rows v : List Row) (h : lookupTable st db tbl = some v) :
    lookupTable (setTable st db tbl rows) db tbl = some rows :=
  lookupEntries_map_set_self st.tables (db, tbl) rows v h

theorem lookupTable_addTable_of_some (st : DBState) (db1 t1 db2 t2 : String)
    (v : List Row) (h : lookupTable st db1 t1 = some v) :
    lookupTable (addTable st db2 t2) db1 t1 = some v := by
  unfold lookupTable addTable at *
  rw [lookupEntries_append, h]
  rfl

theorem lookupTable_addTable_self (st : DBState) (db tbl : String)
    (h : lookupTable st db tbl = none) :
    lookupTable (addTable st db tbl) db tbl = some [] := by
  unfold lookupTable addTable at *
  rw [lookupEntries_append, h]
  simp [lookupEntries]

/-- Characterization of a successful batch insert. -/
theorem insert_batch_ok (st : DBState) (db tbl : String) (records destRows : List Row)
    (h1 : records.isEmpty = false) (h2 : st.engines.contains db = true)
    (h3 : lookupTable st db tbl = some destRows) :
    insert_batch st db tbl records
      = .ok (records.length, setTable st db tbl (destRows ++ records)) := by
  have h2m : db ∈ st.engines := by simpa using h2
  simp [insert_batch, get_engine, h1, h2m, h3]

/-! ## Claim C7: schema inference by runtime kind -/

/-- C7: the Schema Inferencer maps each column by the sample value's runtime
kind — integer-kind values to INTEGER, float-kind values to REAL, any other
value to TEXT — and on the sample row
`(id: 1, name: "x", salary: 75000.0)` it infers
`(id: INTEGER, name: TEXT, salary: REAL)`. -/
theorem schema_inference_by_kind :
    (∀ row : Row, inferSchema row = row.map (fun kv => (kv.1, inferColType kv.2)))
    ∧ (∀ n : Int, inferColType (.vInt n) = .INTEGER)
    ∧ (∀ q : Rat, inferColType (.vFloat q) = .REAL)
    ∧ (∀ s : String, inferColType (.vStr s) = .TEXT)
    ∧ inferColType .vNone = .TEXT
    ∧ inferSchema [("id", .vInt 1), ("name", .vStr "x"), ("salary", .vFloat 75000)]
      = [("id", .INTEGER), ("name", .TEXT), ("salary", .REAL)] :=
  ⟨fun _ => rfl, fun _ => rfl, fun _ => rfl, fun _ => rfl, rfl, rfl⟩

/-! ## Claim C10: booleans infer to INTEGER -/

/-- C10: a column whose sample value is a Python boolean is inferred as
INTEGER (the `isinstance(value, int)` check subsumes `bool`), never as TEXT
or any separate boolean type. -/
theorem bool_inferred_integer (row : Row) (k : String) (b : Bool)
    (h : (k, PyValue.vBool b) ∈ row) :
    (k, ColType.INTEGER) ∈ inferSchema row
    ∧ inferColType (.vBool b) = .INTEGER
    ∧ inferColType (.vBool b) ≠ .TEXT := by
  refine ⟨?_, rfl, by simp [inferColType, isIntKind]⟩
  exact List.mem_map.mpr ⟨(k, PyValue.vBool b), h, rfl⟩

/-- Witness for C10 at a concrete sample row. -/
theorem bool_inferred_integer_witness :
    (("active", PyValue.vBool true) ∈ rowBoolEx)
    ∧ (("active", ColType.INTEGER) ∈ inferSchema rowBoolEx
        ∧ inferColType (.vBool true) = .INTEGER
        ∧ inferColType (.vBool true) ≠ .TEXT) :=
  ⟨by decide, bool_inferred_integer rowBoolEx "active" true (by decide)⟩

/-! ## Claim C5: zero-record completion -/

/-- C5: with an existing but empty source table, `transfer_data` returns a
completed status with 0 of 0 records, leaves the stores untouched, and the
only adapter calls issued are the source existence check and the count. -/
theorem zero_record_completion (st : DBState) (config : TransferConfig)
    (tid : String) (t0 : Nat)
    (heng : st.engines.contains config.source_db = true)
    (hsrc : lookupTable st config.source_db config.source_table = some []) :
    (transfer_data st config tid t0).status.status = "completed"
    ∧ (transfer_data st config tid t0).status.records_transferred = 0
    ∧ (transfer_data st config tid t0).status.total_records = 0
    ∧ (transfer_data st config tid t0).db = st
    ∧ (transfer_data st config tid t0).events
      = [.existsCheck config.source_db config.source_table,
         .countCall config.source_db config.source_table] := by
  have hengm : config.source_db ∈ st.engines := by simpa using heng
  simp [transfer_data, table_exists, count_records, get_engine, hengm, hsrc,
    completeStatus, initialStatus]

/-- Witness for C5: the empty `users` table fixture. -/
theorem zero_record_completion_witness :
    (stEmptyEx.engines.contains "source" = true
      ∧ lookupTable stEmptyEx "source" "users" = some [])
    ∧ ((transfer_data stEmptyEx cfgEx "txn_w5" 0).status.status = "completed"
        ∧ (transfer_data stEmptyEx cfgEx "txn_w5" 0).status.records_transferred = 0
        ∧ (transfer_data stEmptyEx cfgEx "txn_w5" 0).status.total_records = 0
        ∧ (transfer_data stEmptyEx cfgEx "txn_w5" 0).db = stEmptyEx
        ∧ (transfer_data stEmptyEx cfgEx "txn_w5" 0).events
          = [.existsCheck "source" "users", .countCall "source" "users"]) :=
  ⟨⟨rfl, rfl⟩, zero_record_completion stEmptyEx cfgEx "txn_w5" 0 rfl rfl⟩

/-! ## Claim C6: missing-source failure -/

/-- C6: when the source table does not exist in its (known) store,
`transfer_data` returns a failed status whose error message names the
missing table and its database, no store is mutated, and the only adapter
call issued is the source existence check. -/
theorem missing_source_failure (st : DBState) (config : TransferConfig)
    (tid : String) (t0 : Nat)
    (heng : st.engines.contains config.source_db = true)
    (hsrc : lookupTable st config.source_db config.source_table = none) :
    (transfer_data st config tid t0).status.status = "failed"
    ∧ (transfer_data st config tid t0).status.error_message
      = some (sourceMissingMsg config.source_table config.source_db)
    ∧ (∃ a b, sourceMissingMsg config.source_table config.source_db
        = a ++ config.source_table ++ b)
    ∧ (∃ a b, sourceMissingMsg config.source_table config.source_db
        = a ++ config.source_db ++ b)
    ∧ (transfer_data st config tid t0).db = st
    ∧ (transfer_data st config tid t0).events
      = [.existsCheck config.source_db config.source_table] := by
  have hengm : config.source_db ∈ st.engines := by simpa using heng
  refine ⟨?_, ?_, ?_, ?_, ?_, ?_⟩
  · simp [transfer_data, table_exists, get_engine, hengm, hsrc, failStatus]
  · simp [transfer_data, table_exists, get_engine, hengm, hsrc, failStatus]
  · exact ⟨"Source table " ++ sq,
      sq ++ " does not exist in database " ++ sq ++ config.source_db ++ sq
        ++ ". Please check the database and table names and ensure the table exists.",
      by simp [sourceMissingMsg, String.append_assoc]⟩
  · exact ⟨"Source table " ++ sq ++ config.source_table ++ sq
        ++ " does not exist in database " ++ sq,
      sq ++ ". Please check the database and table names and ensure the table exists.",
      by simp [sourceMissingMsg, String.append_assoc]⟩
  · simp [transfer_data, table_exists, get_engine, hengm, hsrc]
  · simp [transfer_data, table_exists, get_engine, hengm, hsrc]

/-- Witness for C6: no tables exist in the fixture stores. -/
theorem missing_source_failure_witness :
    (stMissingEx.engines.contains "source" = true
      ∧ lookupTable stMissingEx "source" "users" = none)
    ∧ ((transfer_data stMissingEx cfgEx "txn_w6" 0).status.status = "failed"
        ∧ (transfer_data stMissingEx cfgEx "txn_w6" 0).status.error_message
          = some (sourceMissingMsg "users" "source")
        ∧ (∃ a b, sourceMissingMsg "users" "source" = a ++ "users" ++ b)
        ∧ (∃ a b, sourceMissingMsg "users" "source" = a ++ "source" ++ b)
        ∧ (transfer_data stMissingEx cfgEx "txn_w6" 0).db = stMissingEx
        ∧ (transfer_data stMissingEx cfgEx "txn_w6" 0).events
          = [.existsCheck "source" "users"]) :=
  ⟨⟨rfl, rfl⟩, missing_source_failure stMissingEx cfgEx "txn_w6" 0 rfl rfl⟩

/-! ## Structure of a finished run -/

/-- Every run ends in exactly one of the two terminal shapes: completed with
no caught exception, or failed carrying the caught message verbatim. -/
theorem transfer_data_shape (st : DBState) (config : TransferConfig)
    (tid : String) (t0 : Nat) :
    ((transfer_data st config tid t0).caught = none
      ∧ (transfer_data st config tid t0).status.status = "completed"
      ∧ (transfer_data st config tid t0).status.error_message = none
      ∧ (transfer_data st config tid t0).status.completed_at = some (t0 + 1)
      ∧ (transfer_data st config tid t0).status.transfer_id = tid)
    ∨ (∃ e, (transfer_data st config tid t0).caught = some e
      ∧ (transfer_data st config tid t0).status.status = "failed"
      ∧ (transfer_data st config tid t0).status.error_message = some e
      ∧ (transfer_data st config tid t0).status.completed_at = some (t0 + 1)
      ∧ (transfer_data st config tid t0).status.transfer_id = tid) := by
  unfold transfer_data loopFinish
  repeat' split
  all_goals simp only [failStatus, completeStatus, initialStatus]
  all_goals repeat' split
  all_goals simp [failStatus, completeStatus, initialStatus]

/-- After a run under a fresh transfer id, the registry's record for that id
is exactly the run's final status (the record registered at start and
mutated in place). -/
theorem get_status_after_run (svc : ServiceState) (config : TransferConfig)
    (tid : String) (t0 : Nat) (hfresh : ∀ e ∈ svc.order, e.1 ≠ tid) :
    get_status (transfer_data_service svc config tid t0).2 tid
      = some (transfer_data svc.db config tid t0).status := by
  have hany : (svc.order.any (fun e => e.1 = tid)) = false := by
    rw [List.any_eq_false]
    intro e he
    simpa using hfresh e he
  have hfind : svc.order.find? (fun e => e.1 = tid) = none := by
    rw [List.find?_eq_none]
    intro e he
    simpa using hfresh e he
  simp only [get_status, transfer_data_service, registerStatus, dictInsert, hany,
    Bool.false_eq_true, if_false, List.find?_append, hfind, Option.none_or]
  have hlt : svc.heap.length < (svc.heap ++ [initialStatus config tid t0]).length := by
    simp
  simp [List.getElem?_set_self hlt]

/-! ## Claim C2: failures after registration become a failed status -/

/-- C2: for every run, `transfer_data` returns (never raises) a terminal
status that is completed or failed; it is failed exactly when some step
raised, in which case `error_message` holds the caught message verbatim and
`completed_at` is set; and the returned status is the same record the
registry holds for the transfer id. -/
theorem execute_converts_failures (st : DBState) (config : TransferConfig)
    (tid : String) (t0 : Nat) :
    ((transfer_data st config tid t0).status.status = "completed"
      ∨ (transfer_data st config tid t0).status.status = "failed")
    ∧ (transfer_data st config tid t0).status.error_message
        = (transfer_data st config tid t0).caught
    ∧ ((transfer_data st config tid t0).status.status = "failed"
        ↔ ((transfer_data st config tid t0).caught).isSome)
    ∧ (((transfer_data st config tid t0).caught).isSome
        → (transfer_data st config tid t0).status.completed_at = some (t0 + 1))
    ∧ (transfer_data st config tid t0).status.transfer_id = tid
    ∧ (∀ svc : ServiceState, svc.db = st → (∀ e ∈ svc.order, e.1 ≠ tid) →
        get_status (transfer_data_service svc config tid t0).2 tid
          = some (transfer_data st config tid t0).status) := by
  have hreg : ∀ svc : ServiceState, svc.db = st → (∀ e ∈ svc.order, e.1 ≠ tid) →
      get_status (transfer_data_service svc config tid t0).2 tid
        = some (transfer_data st config tid t0).status := by
    intro svc hdb hfresh
    have h := get_status_after_run svc config tid t0 hfresh
    rwa [hdb] at h
  rcases transfer_data_shape st config tid t0 with
    ⟨hc, hs, he, hca, hid⟩ | ⟨e, hc, hs, he, hca, hid⟩
  · refine ⟨Or.inl hs, ?_, ?_, ?_, hid, hreg⟩
    · rw [he, hc]
    · rw [hs, hc]
      simp
    · rw [hc]
      simp
  · refine ⟨Or.inr hs, ?_, ?_, ?_, hid, hreg⟩
    · rw [he, hc]
    · rw [hs, hc]
      simp
    · intro _
      exact hca

/-- Witness for C2 at a concrete run (the inner registry conjunct has
hypotheses). -/
theorem execute_converts_failures_witness :
    (svcEx.db = stEx ∧ (∀ e ∈ svcEx.order, e.1 ≠ "txn_w2"))
    ∧ (((transfer_data stEx cfgEx "txn_w2" 0).status.status = "completed"
      ∨ (transfer_data stEx cfgEx "txn_w2" 0).status.status = "failed")
    ∧ (transfer_data stEx cfgEx "txn_w2" 0).status.error_message
        = (transfer_data stEx cfgEx "txn_w2" 0).caught
    ∧ ((transfer_data stEx cfgEx "txn_w2" 0).status.status = "failed"
        ↔ ((transfer_data stEx cfgEx "txn_w2" 0).caught).isSome)
    ∧ (((transfer_data stEx cfgEx "txn_w2" 0).caught).isSome
        → (transfer_data stEx cfgEx "txn_w2" 0).status.completed_at = some 1)
    ∧ (transfer_data stEx cfgEx "txn_w2" 0).status.transfer_id = "txn_w2"
    ∧ (∀ svc : ServiceState, svc.db = stEx → (∀ e ∈ svc.order, e.1 ≠ "txn_w2") →
        get_status (transfer_data_service svc cfgEx "txn_w2" 0).2 "txn_w2"
          = some (transfer_data stEx cfgEx "txn_w2" 0).status)) :=
  ⟨⟨rfl, by simp [svcEx]⟩, execute_converts_failures stEx cfgEx "txn_w2" 0⟩

/-! ## Claim C1 (corrected): configuration errors are caught after registration -/

/-- Counterexample to C1 as stated: running a config whose source store is
unknown to the adapter does create a transfer identifier and a registry
record — `get_status` shows a (failed) record for the call, and the call
returns the failed status instead of raising. -/
theorem unknown_store_registers_record_cex :
    (get_status (transfer_data_service svcEx cfgBadEx "txn_c1" 0).2 "txn_c1").isSome = true
    ∧ (transfer_data_service svcEx cfgBadEx "txn_c1" 0).1.status = "failed"
    ∧ (get_all_transfers (transfer_data_service svcEx cfgBadEx "txn_c1" 0).2).length = 1 :=
  ⟨rfl, rfl, rfl⟩

/-- C1 amended: a config naming an unknown source store is not rejected
before the transfer identifier exists; `transfer_data` registers a status
record, converts the `ValueError` of `get_engine` into a failed status
whose `error_message` names the unknown database, returns it, and the
registry keeps that failed record. -/
theorem unknown_store_failed_status (svc : ServiceState) (config : TransferConfig)
    (tid : String) (t0 : Nat)
    (hbad : svc.db.engines.contains config.source_db = false)
    (hfresh : ∀ e ∈ svc.order, e.1 ≠ tid) :
    (transfer_data_service svc config tid t0).1.status = "failed"
    ∧ (transfer_data_service svc config tid t0).1.error_message
        = some (dbNotFoundMsg config.source_db svc.db.engines)
    ∧ get_status (transfer_data_service svc config tid t0).2 tid
        = some (transfer_data_service svc config tid t0).1 := by
  have hbadm : ¬ config.source_db ∈ svc.db.engines := by simpa using hbad
  refine ⟨?_, ?_, ?_⟩
  · simp [transfer_data_service, registerStatus, transfer_data, table_exists,
      get_engine, hbadm, failStatus, initialStatus]
  · simp [transfer_data_service, registerStatus, transfer_data, table_exists,
      get_engine, hbadm, failStatus, initialStatus]
  · exact get_status_after_run svc config tid t0 hfresh

/-- Witness for the amended C1. -/
theorem unknown_store_failed_status_witness :
    (svcEx.db.engines.contains "nosuchdb" = false
      ∧ (∀ e ∈ svcEx.order, e.1 ≠ "txn_c1w"))
    ∧ ((transfer_data_service svcEx cfgBadEx "txn_c1w" 0).1.status = "failed"
      ∧ (transfer_data_service svcEx cfgBadEx "txn_c1w" 0).1.error_message
          = some (dbNotFoundMsg "nosuchdb" svcEx.db.engines)
      ∧ get_status (transfer_data_service svcEx cfgBadEx "txn_c1w" 0).2 "txn_c1w"
          = some (transfer_data_service svcEx cfgBadEx "txn_c1w" 0).1) :=
  ⟨⟨rfl, by simp [svcEx]⟩,
    unknown_store_failed_status svcEx cfgBadEx "txn_c1w" 0 rfl (by simp [svcEx])⟩

/-! ## Claim C9 (corrected): the returned list is a shallow snapshot -/

/-- Counterexample to C9 as stated: the sequence returned by
`get_all_transfers` aliases the shared status records, so an in-place
update of a transfer status (here the engine's progress increment) after
the call does change the contents of the already-returned sequence. -/
theorem list_snapshot_cex :
    derefAll (recordProgress svcOneEx 0 2) (get_all_transfers svcOneEx)
      ≠ derefAll svcOneEx (get_all_transfers svcOneEx) := by decide

/-- C9 amended: the returned sequence is a snapshot with respect to the
registry mapping itself — registering a new transfer afterwards (the only
mutation of the mapping the engine performs) leaves the contents of the
already-returned sequence unchanged; only in-place updates of statuses
already in it are visible through it. -/
theorem list_snapshot_registry (svc : ServiceState) (config : TransferConfig)
    (tid : String) (t0 : Nat)
    (hwf : ∀ i ∈ svc.order.map (fun e => e.2), i < svc.heap.length) :
    derefAll (transfer_data_service svc config tid t0).2 (get_all_transfers svc)
      = derefAll svc (get_all_transfers svc) := by
  simp only [derefAll, get_all_transfers, transfer_data_service, registerStatus]
  apply List.map_congr_left
  intro i hi
  have hlt : i < svc.heap.length := hwf i hi
  rw [List.getElem?_set_ne (Nat.ne_of_gt hlt), List.getElem?_append, if_pos hlt]

/-- Witness for the amended C9. -/
theorem list_snapshot_registry_witness :
    (∀ i ∈ svcOneEx.order.map (fun e => e.2), i < svcOneEx.heap.length)
    ∧ derefAll (transfer_data_service svcOneEx cfgEx "txn_w9" 0).2
        (get_all_transfers svcOneEx)
      = derefAll svcOneEx (get_all_transfers svcOneEx) :=
  ⟨by decide, list_snapshot_registry svcOneEx cfgEx "txn_w9" 0 (by decide)⟩

/-! ## Claim C3 (corrected): progress monotone and bounded by the total -/

/-- Counterexample to C3 as stated: a self-transfer (destination table equal
to the source table) re-reads its own inserts through offset pagination, and
`records_transferred` ends at 4 while `total_records` is 3 — the observed
progress values exceed `total_records`. -/
theorem progress_exceeds_total_cex :
    (transfer_data stEx cfgSelfEx "txn_c3" 0).status.records_transferred = 4
    ∧ (transfer_data stEx cfgSelfEx "txn_c3" 0).status.total_records = 3
    ∧ ¬ (∀ v ∈ progressValues (transfer_data stEx cfgSelfEx "txn_c3" 0).events,
          v ≤ (transfer_data stEx cfgSelfEx "txn_c3" 0).status.total_records) := by
  decide

/-! ## Claim C4: terminal consistency of every reachable status value -/

/-- Every status value recorded while the copy loop runs only differs from
the running status in `records_transferred`. -/
theorem mem_loopHistory (s : TransferStatus) (events : List AdapterEvent)
    (x : TransferStatus) (hx : x ∈ loopHistory s events) :
    ∃ k, x = { s with records_transferred := k } := by
  unfold loopHistory at hx
  rcases List.mem_filterMap.mp hx with ⟨ev, hmem, hev⟩
  cases ev with
  | existsCheck db tbl => exact absurd hev (by simp)
  | countCall db tbl => exact absurd hev (by simp)
  | sampleRead db tbl => exact absurd hev (by simp)
  | createCall db tbl => exact absurd hev (by simp)
  | pageRead db tbl l o => exact absurd hev (by simp)
  | insertCall db tbl n => exact absurd hev (by simp)
  | progressUpdate n =>
    simp only [Option.some.injEq] at hev
    exact ⟨n, hev.symm⟩

/-- C4: every status value the record takes during a run satisfies the
invariants — `completed_at` is set iff the state is completed or failed and
is then at least `started_at`, and `error_message` is set iff the state is
failed. -/
theorem status_invariants (st : DBState) (config : TransferConfig)
    (tid : String) (t0 : Nat) :
    ∀ s ∈ (transfer_data st config tid t0).history,
      (s.completed_at.isSome ↔ (s.status = "completed" ∨ s.status = "failed"))
      ∧ (s.error_message.isSome ↔ s.status = "failed")
      ∧ (∀ t, s.completed_at = some t → s.started_at ≤ t) := by
  intro s hs
  simp only [transfer_data, loopFinish] at hs
  repeat' split at hs
  all_goals simp only [List.mem_cons, List.mem_append, List.mem_singleton,
    List.not_mem_nil, or_false, false_or] at hs
  all_goals repeat' (rcases hs with hs | hs)
  all_goals
    first
    | (rcases mem_loopHistory _ _ _ hs with ⟨k, rfl⟩
       simp [failStatus, completeStatus, initialStatus])
    | (simp [failStatus, completeStatus, initialStatus]
       try omega)

/-- Witness for C4 at a concrete run and a concrete reachable status. -/
theorem status_invariants_witness :
    ((transfer_data stEx cfgEx "txn_w4" 0).status
        ∈ (transfer_data stEx cfgEx "txn_w4" 0).history)
    ∧ (((transfer_data stEx cfgEx "txn_w4" 0).status.completed_at.isSome
        ↔ ((transfer_data stEx cfgEx "txn_w4" 0).status.status = "completed"
            ∨ (transfer_data stEx cfgEx "txn_w4" 0).status.status = "failed"))
      ∧ ((transfer_data stEx cfgEx "txn_w4" 0).status.error_message.isSome
        ↔ (transfer_data stEx cfgEx "txn_w4" 0).status.status = "failed")
      ∧ (∀ t, (transfer_data stEx cfgEx "txn_w4" 0).status.completed_at = some t
          → (transfer_data stEx cfgEx "txn_w4" 0).status.started_at ≤ t)) :=
  ⟨by decide, status_invariants stEx cfgEx "txn_w4" 0
    (transfer_data stEx cfgEx "txn_w4" 0).status (by decide)⟩

/-! ## The copy loop, exact behaviour on a stable source -/

/-- Inversion of a successful non-empty batch insert. -/
theorem insert_batch_ok_inversion (st : DBState) (db tbl : String)
    (records : List Row) (n : Nat) (st1 : DBState)
    (hrec : records.isEmpty = false)
    (h : insert_batch st db tbl records = .ok (n, st1)) :
    n = records.length ∧ ∃ destRows, lookupTable st db tbl = some destRows
      ∧ st1 = setTable st db tbl (destRows ++ records) := by
  unfold insert_batch at h
  rw [hrec] at h
  simp only [Bool.false_eq_true, if_false] at h
  cases hge : get_engine st db with
  | error e => rw [hge] at h; exact absurd h (by simp)
  | ok u =>
    rw [hge] at h
    cases hlk : lookupTable st db tbl with
    | none => rw [hlk] at h; exact absurd h (by simp)
    | some destRows =>
      rw [hlk] at h
      simp only [Except.ok.injEq, Prod.mk.injEq] at h
      exact ⟨h.1.symm, destRows, rfl, h.2.symm⟩

/-- One step of the ceiling-division count of pages. -/
theorem ceil_div_step (m B : Nat) (hB : 1 ≤ B) (hm : 0 < m) :
    (m + B - 1) / B = ((m - B) + B - 1) / B + 1 := by
  rcases le_or_lt m B with h | h
  · have h1 : m - B = 0 := by omega
    rw [h1]
    have h2 : (0 + B - 1) / B = 0 := Nat.div_eq_of_lt (by omega)
    rw [h2]
    exact Nat.div_eq_of_lt_le (by omega) (by omega)
  · have h3 : m + B - 1 = ((m - B) + B - 1) + B := by omega
    rw [h3, Nat.add_div_right _ (by omega)]

/-- The empty page count. -/
theorem ceil_div_zero (B : Nat) (hB : 1 ≤ B) : (0 + B - 1) / B = 0 :=
  Nat.div_eq_of_lt (by omega)

/-- The copy loop on a source table that stays fixed (the destination is a
different table): with sufficient fuel it never errs, transfers exactly the
remaining `rows.length - offs` records, and issues exactly the ceiling
number of batch inserts whose sizes sum to the remaining count. -/
theorem copyLoop_exact (config : TransferConfig) (rows : List Row)
    (hne : (config.source_db, config.source_table)
        ≠ (config.destination_db, config.destination_table))
    (hB : 1 ≤ config.batch_size) :
    ∀ fuel offs transferred db destRows,
      lookupTable db config.source_db config.source_table = some rows →
      lookupTable db config.destination_db config.destination_table = some destRows →
      db.engines.contains config.destination_db = true →
      rows.length ≤ offs + fuel * config.batch_size →
      (copyLoop config rows.length fuel offs transferred db).err = none
      ∧ (copyLoop config rows.length fuel offs transferred db).transferred
          = transferred + (rows.length - offs)
      ∧ (insertSizes (copyLoop config rows.length fuel offs transferred db).events).length
          = ((rows.length - offs) + config.batch_size - 1) / config.batch_size
      ∧ (insertSizes (copyLoop config rows.length fuel offs transferred db).events).sum
          = rows.length - offs := by
  intro fuel
  induction fuel with
  | zero =>
    intro offs transferred db destRows hsrc hdst heng hfuel
    rw [Nat.zero_mul] at hfuel
    have h0 : rows.length - offs = 0 := by omega
    rw [h0]
    have hc : (0 + config.batch_size - 1) / config.batch_size = 0 :=
      ceil_div_zero config.batch_size hB
    rw [Nat.zero_add] at hc
    simp [copyLoop, insertSizes, hc]
  | succ fuel ih =>
    intro offs transferred db destRows hsrc hdst heng hfuel
    rw [Nat.succ_mul] at hfuel
    by_cases hofs : offs < rows.length
    · have hread : readPage db config.source_db config.source_table
          config.batch_size offs = .ok ((rows.drop offs).take config.batch_size) := by
        simp [readPage, hsrc]
      have hplen : ((rows.drop offs).take config.batch_size).length
          = min config.batch_size (rows.length - offs) := by
        simp
      have hpne : ((rows.drop offs).take config.batch_size).isEmpty = false := by
        rw [List.isEmpty_eq_false_iff_exists_mem]
        have : 0 < ((rows.drop offs).take config.batch_size).length := by
          rw [hplen]; omega
        exact List.exists_mem_of_length_pos this
      have hins : insert_batch db config.destination_db config.destination_table
          ((rows.drop offs).take config.batch_size)
          = .ok (((rows.drop offs).take config.batch_size).length,
              setTable db config.destination_db config.destination_table
                (destRows ++ (rows.drop offs).take config.batch_size)) :=
        insert_batch_ok db config.destination_db config.destination_table _ _ hpne heng hdst
      have hsrc1 : lookupTable (setTable db config.destination_db
            config.destination_table (destRows ++ (rows.drop offs).take config.batch_size))
          config.source_db config.source_table = some rows := by
        rw [lookupTable_setTable_ne _ _ _ _ _ _ hne]
        exact hsrc
      have hdst1 : lookupTable (setTable db config.destination_db
            config.destination_table (destRows ++ (rows.drop offs).take config.batch_size))
          config.destination_db config.destination_table
          = some (destRows ++ (rows.drop offs).take config.batch_size) :=
        lookupTable_setTable_self db _ _ _ _ hdst
      have heng1 : (setTable db config.destination_db config.destination_table
          (destRows ++ (rows.drop offs).take config.batch_size)).engines.contains
            config.destination_db = true := by
        rw [engines_setTable]; exact heng
      have hfuel1 : rows.length ≤ (offs + config.batch_size) + fuel * config.batch_size := by
        omega
      obtain ⟨e1, e2, e3, e4⟩ := ih (offs + config.batch_size)
        (transferred + ((rows.drop offs).take config.batch_size).length)
        _ _ hsrc1 hdst1 heng1 hfuel1
      have hred : copyLoop config rows.length (fuel + 1) offs transferred db
          = { copyLoop config rows.length fuel (offs + config.batch_size)
                (transferred + ((rows.drop offs).take config.batch_size).length)
                (setTable db config.destination_db config.destination_table
                  (destRows ++ (rows.drop offs).take config.batch_size)) with
              events := .pageRead config.source_db config.source_table
                  config.batch_size offs
                :: .insertCall config.destination_db config.destination_table
                    ((rows.drop offs).take config.batch_size).length
                :: .progressUpdate (transferred
                    + ((rows.drop offs).take config.batch_size).length)
                :: (copyLoop config rows.length fuel (offs + config.batch_size)
                    (transferred + ((rows.drop offs).take config.batch_size).length)
                    (setTable db config.destination_db config.destination_table
                      (destRows ++ (rows.drop offs).take config.batch_size))).events } := by
        conv_lhs => rw [copyLoop]
        rw [if_pos hofs, hread]
        simp only [hpne, Bool.false_eq_true, if_false, hins]
      rw [hred]
      refine ⟨e1, ?_, ?_, ?_⟩
      · rw [e2, hplen]
        omega
      · simp only [insertSizes, List.filterMap_cons]
        simp only [insertSizes] at e3
        rw [List.length_cons, e3]
        have hstep := ceil_div_step (rows.length - offs) config.batch_size hB (by omega)
        have harg : rows.length - (offs + config.batch_size)
            = (rows.length - offs) - config.batch_size := by omega
        rw [harg]
        exact hstep.symm
      · simp only [insertSizes, List.filterMap_cons]
        simp only [insertSizes] at e4
        rw [List.sum_cons, e4, hplen]
        omega
    · have h0 : rows.length - offs = 0 := by omega
      rw [h0]
      have hc : (0 + config.batch_size - 1) / config.batch_size = 0 :=
        ceil_div_zero config.batch_size hB
      rw [Nat.zero_add] at hc
      simp [copyLoop, hofs, insertSizes, hc]

/-! ## The copy loop, monotone progress -/

theorem progressValues_cons_page (a b : String) (l o : Nat) (evs : List AdapterEvent) :
    progressValues (.pageRead a b l o :: evs) = progressValues evs := rfl

theorem progressValues_cons_insert (a b : String) (n : Nat) (evs : List AdapterEvent) :
    progressValues (.insertCall a b n :: evs) = progressValues evs := rfl

theorem progressValues_cons_progress (k : Nat) (evs : List AdapterEvent) :
    progressValues (.progressUpdate k :: evs) = k :: progressValues evs := rfl

theorem pmi_cons_page (acc : Nat) (a b : String) (l o : Nat) (evs : List AdapterEvent) :
    progressMatchesInserts acc (.pageRead a b l o :: evs)
      = progressMatchesInserts acc evs := rfl

theorem pmi_insert_progress (acc : Nat) (a b : String) (n k : Nat)
    (evs : List AdapterEvent) :
    progressMatchesInserts acc (.insertCall a b n :: .progressUpdate k :: evs)
      = (decide (k = acc + n) && progressMatchesInserts k evs) := rfl

/-- The copy loop on a stable source: the published progress values are
non-decreasing, never exceed the source row count, and each one immediately
follows the batch insert that justifies it with the exact increment. -/
theorem copyLoop_mono (config : TransferConfig) (rows : List Row)
    (hne : (config.source_db, config.source_table)
        ≠ (config.destination_db, config.destination_table)) :
    ∀ fuel offs transferred db,
      lookupTable db config.source_db config.source_table = some rows →
      transferred ≤ offs →
      List.Chain' (· ≤ ·) (transferred ::
          progressValues (copyLoop config rows.length fuel offs transferred db).events)
      ∧ (∀ v ∈ progressValues (copyLoop config rows.length fuel offs transferred db).events,
          v ≤ rows.length)
      ∧ progressMatchesInserts transferred
          (copyLoop config rows.length fuel offs transferred db).events = true := by
  intro fuel
  induction fuel with
  | zero =>
    intro offs transferred db hsrc hto
    simp [copyLoop, progressValues, progressMatchesInserts]
  | succ fuel ih =>
    intro offs transferred db hsrc hto
    by_cases hofs : offs < rows.length
    · have hread : readPage db config.source_db config.source_table
          config.batch_size offs = .ok ((rows.drop offs).take config.batch_size) := by
        simp [readPage, hsrc]
      by_cases hempty : ((rows.drop offs).take config.batch_size).isEmpty
      · have hred : copyLoop config rows.length (fuel + 1) offs transferred db
            = ⟨db, transferred,
                [.pageRead config.source_db config.source_table config.batch_size offs],
                none⟩ := by
          conv_lhs => rw [copyLoop]
          rw [if_pos hofs, hread]
          simp only [hempty, if_true]
        rw [hred]
        simp [progressValues, progressMatchesInserts]
      · have hempty' : ((rows.drop offs).take config.batch_size).isEmpty = false :=
          Bool.not_eq_true _ ▸ Bool.of_not_eq_true hempty
        cases hins : insert_batch db config.destination_db config.destination_table
            ((rows.drop offs).take config.batch_size) with
        | error e =>
          have hred : copyLoop config rows.length (fuel + 1) offs transferred db
              = ⟨db, transferred,
                  [.pageRead config.source_db config.source_table config.batch_size offs,
                   .insertCall config.destination_db config.destination_table
                     ((rows.drop offs).take config.batch_size).length],
                  some e⟩ := by
            conv_lhs => rw [copyLoop]
            rw [if_pos hofs, hread]
            simp only [hempty', Bool.false_eq_true, if_false, hins]
          rw [hred]
          simp [progressValues, progressMatchesInserts]
        | ok p =>
          obtain ⟨n, db1⟩ := p
          obtain ⟨hn, destRows, hdest, hdb1⟩ :=
            insert_batch_ok_inversion db _ _ _ _ _ hempty' hins
          have hlen : ((rows.drop offs).take config.batch_size).length
              = min config.batch_size (rows.length - offs) := by
            simp
          have hsrc1 : lookupTable db1 config.source_db config.source_table
              = some rows := by
            rw [hdb1, lookupTable_setTable_ne _ _ _ _ _ _ hne]
            exact hsrc
          have hto1 : transferred + n ≤ offs + config.batch_size := by
            rw [hn, hlen]
            omega
          obtain ⟨c1, c2, c3⟩ := ih (offs + config.batch_size) (transferred + n) db1 hsrc1 hto1
          have hred : copyLoop config rows.length (fuel + 1) offs transferred db
              = { copyLoop config rows.length fuel (offs + config.batch_size)
                    (transferred + n) db1 with
                  events := .pageRead config.source_db config.source_table
                      config.batch_size offs
                    :: .insertCall config.destination_db config.destination_table n
                    :: .progressUpdate (transferred + n)
                    :: (copyLoop config rows.length fuel (offs + config.batch_size)
                        (transferred + n) db1).events } := by
            conv_lhs => rw [copyLoop]
            rw [if_pos hofs, hread]
            simp only [hempty', Bool.false_eq_true, if_false, hins]
          rw [hred]
          have hvbound : transferred + n ≤ rows.length := by
            rw [hn, hlen]
            omega
          refine ⟨?_, ?_, ?_⟩
          · simp only [progressValues_cons_page, progressValues_cons_insert,
              progressValues_cons_progress]
            rw [List.chain'_cons]
            exact ⟨Nat.le_add_right _ _, c1⟩
          · intro v hv
            simp only [progressValues_cons_page, progressValues_cons_insert,
              progressValues_cons_progress] at hv
            rcases List.mem_cons.mp hv with h | h
            · rw [h]
              exact hvbound
            · exact c2 v h
          · simp only [pmi_cons_page, pmi_insert_progress]
            simp [c3]
    · have hred : copyLoop config rows.length (fuel + 1) offs transferred db
          = ⟨db, transferred, [], none⟩ := by
        conv_lhs => rw [copyLoop]
        rw [if_neg hofs]
      rw [hred]
      simp [progressValues, progressMatchesInserts]

/-! ## Reaching the copy loop -/

theorem table_exists_ok_inversion (st : DBState) (db tbl : String) (b : Bool)
    (h : table_exists st db tbl = .ok b) :
    st.engines.contains db = true ∧ (lookupTable st db tbl).isSome = b := by
  unfold table_exists get_engine at h
  by_cases hc : st.engines.contains db = true
  · rw [if_pos hc] at h
    simp only [Except.ok.injEq] at h
    exact ⟨hc, h⟩
  · rw [if_neg hc] at h
    exact absurd h (by simp)

theorem count_records_ok_inversion (st : DBState) (db tbl : String) (n : Nat)
    (h : count_records st db tbl = .ok n) :
    ∃ rows, lookupTable st db tbl = some rows ∧ rows.length = n := by
  unfold count_records at h
  cases hge : get_engine st db with
  | error e => rw [hge] at h; exact absurd h (by simp)
  | ok u =>
    rw [hge] at h
    cases hlk : lookupTable st db tbl with
    | none => rw [hlk] at h; exact absurd h (by simp)
    | some rows =>
      rw [hlk] at h
      simp only [Except.ok.injEq] at h
      exact ⟨rows, rfl, h⟩

theorem pmi_cons_exists (acc : Nat) (a b : String) (evs : List AdapterEvent) :
    progressMatchesInserts acc (.existsCheck a b :: evs)
      = progressMatchesInserts acc evs := rfl

theorem pmi_cons_count (acc : Nat) (a b : String) (evs : List AdapterEvent) :
    progressMatchesInserts acc (.countCall a b :: evs)
      = progressMatchesInserts acc evs := rfl

theorem pmi_cons_sample (acc : Nat) (a b : String) (evs : List AdapterEvent) :
    progressMatchesInserts acc (.sampleRead a b :: evs)
      = progressMatchesInserts acc evs := rfl

theorem pmi_cons_create (acc : Nat) (a b : String) (evs : List AdapterEvent) :
    progressMatchesInserts acc (.createCall a b :: evs)
      = progressMatchesInserts acc evs := rfl

theorem progressValues_append (l1 l2 : List AdapterEvent) :
    progressValues (l1 ++ l2) = progressValues l1 ++ progressValues l2 := by
  simp [progressValues]

theorem insertSizes_append (l1 l2 : List AdapterEvent) :
    insertSizes (l1 ++ l2) = insertSizes l1 ++ insertSizes l2 := by
  simp [insertSizes]

/-- With a known source store holding a nonempty table and a known
destination store, `transfer_data` reaches the copy loop: it equals
`loopFinish` on a state whose source table is unchanged and whose
destination table exists (created from the inferred schema when absent),
after a prefix of adapter events containing no inserts and no progress
updates. -/
theorem transfer_data_to_loopFinish (st : DBState) (config : TransferConfig)
    (tid : String) (t0 : Nat)
    (hsrceng : st.engines.contains config.source_db = true)
    (hdesteng : st.engines.contains config.destination_db = true)
    (rows : List Row)
    (hsrc : lookupTable st config.source_db config.source_table = some rows)
    (hN : rows.length ≠ 0) :
    ∃ st1 evE,
      transfer_data st config tid t0
        = loopFinish config (initialStatus config tid t0) rows.length evE st1 t0
      ∧ lookupTable st1 config.source_db config.source_table = some rows
      ∧ (∃ destRows, lookupTable st1 config.destination_db config.destination_table
          = some destRows)
      ∧ st1.engines = st.engines
      ∧ progressValues evE = []
      ∧ insertSizes evE = []
      ∧ (∀ acc rest, progressMatchesInserts acc (evE ++ rest)
          = progressMatchesInserts acc rest) := by
  have hsengm : config.source_db ∈ st.engines := by simpa using hsrceng
  have hdengm : config.destination_db ∈ st.engines := by simpa using hdesteng
  have h1 : table_exists st config.source_db config.source_table = .ok true := by
    simp [table_exists, get_engine, hsengm, hsrc]
  have h2 : count_records st config.source_db config.source_table = .ok rows.length := by
    simp [count_records, get_engine, hsengm, hsrc]
  cases hdst : lookupTable st config.destination_db config.destination_table with
  | some destRows =>
    have h4 : table_exists st config.destination_db config.destination_table
        = .ok true := by
      simp [table_exists, get_engine, hdengm, hdst]
    refine ⟨st, [.existsCheck config.source_db config.source_table,
        .countCall config.source_db config.source_table,
        .existsCheck config.destination_db config.destination_table], ?_,
      hsrc, ⟨destRows, hdst⟩, rfl, rfl, rfl, ?_⟩
    · simp only [transfer_data, h1, h2, hN, if_false, h4]
      rfl
    · intro acc rest
      simp only [List.cons_append, List.nil_append, pmi_cons_exists, pmi_cons_count]
  | none =>
    have h4 : table_exists st config.destination_db config.destination_table
        = .ok false := by
      simp [table_exists, get_engine, hdengm, hdst]
    cases rows with
    | nil => exact (hN rfl).elim
    | cons r rs =>
      have hsample : get_table_data st config.source_db config.source_table (some 1)
          = .ok [r] := by
        simp [get_table_data, get_engine, hsengm, hsrc]
      have hcreate : create_table_from_schema st config.destination_db
          config.destination_table (inferSchema r) = .ok
            (addTable st config.destination_db config.destination_table) := by
        simp [create_table_from_schema, get_engine, hdengm, hdst]
      refine ⟨addTable st config.destination_db config.destination_table,
        [.existsCheck config.source_db config.source_table,
         .countCall config.source_db config.source_table,
         .existsCheck config.destination_db config.destination_table,
         .sampleRead config.source_db config.source_table,
         .createCall config.destination_db config.destination_table], ?_,
        lookupTable_addTable_of_some st _ _ _ _ _ hsrc,
        ⟨[], lookupTable_addTable_self st _ _ hdst⟩, rfl, rfl, rfl, ?_⟩
      · simp only [transfer_data, h1, h2, hN, if_false, h4, hsample, hcreate]
        rfl
      · intro acc rest
        simp only [List.cons_append, List.nil_append, pmi_cons_exists, pmi_cons_count,
          pmi_cons_sample, pmi_cons_create]

/-- C3 amended: provided the destination table is not the source table
itself (so the source is not mutated by the transfer), the published
`records_transferred` values are non-decreasing, never exceed
`total_records`, and each increase immediately follows the batch insert
that produced it, by exactly the inserted count. -/
theorem progress_monotone_bounded (st : DBState) (config : TransferConfig)
    (tid : String) (t0 : Nat)
    (hne : (config.source_db, config.source_table)
        ≠ (config.destination_db, config.destination_table)) :
    List.Chain' (· ≤ ·) (progressValues (transfer_data st config tid t0).events)
    ∧ (∀ v ∈ progressValues (transfer_data st config tid t0).events,
        v ≤ (transfer_data st config tid t0).status.total_records)
    ∧ progressMatchesInserts 0 (transfer_data st config tid t0).events = true := by
  cases h1 : table_exists st config.source_db config.source_table with
  | error e => simp [transfer_data, h1, progressValues, progressMatchesInserts]
  | ok b =>
    cases b with
    | false => simp [transfer_data, h1, progressValues, progressMatchesInserts]
    | true =>
      obtain ⟨hseng, _⟩ := table_exists_ok_inversion _ _ _ _ h1
      cases h2 : count_records st config.source_db config.source_table with
      | error e => simp [transfer_data, h1, h2, progressValues, progressMatchesInserts]
      | ok total =>
        obtain ⟨rows, hrows, htot⟩ := count_records_ok_inversion _ _ _ _ h2
        by_cases h3 : total = 0
        · simp [transfer_data, h1, h2, h3, progressValues, progressMatchesInserts]
        · cases h4 : table_exists st config.destination_db config.destination_table with
          | error e =>
            simp [transfer_data, h1, h2, h3, h4, progressValues, progressMatchesInserts]
          | ok destExists =>
            obtain ⟨hdeng, _⟩ := table_exists_ok_inversion _ _ _ _ h4
            subst htot
            obtain ⟨st1, evE, heq, hsrc1, _, hengs, hpvE, hisE, hpmiE⟩ :=
              transfer_data_to_loopFinish st config tid t0 hseng hdeng rows hrows h3
            rw [heq]
            have hge1 : get_engine st1 config.source_db = .ok () := by
              unfold get_engine
              rw [hengs]
              have hm : config.source_db ∈ st.engines := by simpa using hseng
              simp [hm]
            obtain ⟨c1, c2, c3⟩ :=
              copyLoop_mono config rows hne rows.length 0 0 st1 hsrc1 (Nat.le_refl 0)
            cases herr : (copyLoop config rows.length rows.length 0 0 st1).err with
            | some e =>
              simp only [loopFinish, hge1, herr]
              refine ⟨?_, ?_, ?_⟩
              · rw [progressValues_append, hpvE, List.nil_append]
                exact c1.tail
              · intro v hv
                rw [progressValues_append, hpvE, List.nil_append] at hv
                simp only [failStatus, initialStatus]
                exact c2 v hv
              · rw [hpmiE]
                exact c3
            | none =>
              simp only [loopFinish, hge1, herr]
              refine ⟨?_, ?_, ?_⟩
              · rw [progressValues_append, hpvE, List.nil_append]
                exact c1.tail
              · intro v hv
                rw [progressValues_append, hpvE, List.nil_append] at hv
                simp only [completeStatus, initialStatus]
                exact c2 v hv
              · rw [hpmiE]
                exact c3

/-- Witness for the amended C3. -/
theorem progress_monotone_bounded_witness :
    (("source", "users") ≠ ("destination", "users_copy"))
    ∧ (List.Chain' (· ≤ ·) (progressValues (transfer_data stEx cfgEx "txn_w3" 0).events)
      ∧ (∀ v ∈ progressValues (transfer_data stEx cfgEx "txn_w3" 0).events,
          v ≤ (transfer_data stEx cfgEx "txn_w3" 0).status.total_records)
      ∧ progressMatchesInserts 0 (transfer_data stEx cfgEx "txn_w3" 0).events = true) :=
  ⟨by decide, progress_monotone_bounded stEx cfgEx "txn_w3" 0 (by decide)⟩

/-! ## Claim C8: batch completeness -/

/-- C8: for a stable source table of N ≥ 1 rows, a distinct destination
table, known stores and `batch_size ≥ 1`, the run completes with
`records_transferred = N = total_records`, issuing exactly
`⌈N / batch_size⌉` batch inserts whose sizes sum to N. -/
theorem batch_completeness (st : DBState) (config : TransferConfig)
    (tid : String) (t0 : Nat)
    (hB : 1 ≤ config.batch_size)
    (hsrceng : st.engines.contains config.source_db = true)
    (hdesteng : st.engines.contains config.destination_db = true)
    (hne : (config.source_db, config.source_table)
        ≠ (config.destination_db, config.destination_table))
    (rows : List Row)
    (hsrc : lookupTable st config.source_db config.source_table = some rows)
    (hN : 1 ≤ rows.length) :
    (transfer_data st config tid t0).status.status = "completed"
    ∧ (transfer_data st config tid t0).status.records_transferred = rows.length
    ∧ (transfer_data st config tid t0).status.total_records = rows.length
    ∧ (insertSizes (transfer_data st config tid t0).events).length
        = (rows.length + config.batch_size - 1) / config.batch_size
    ∧ (insertSizes (transfer_data st config tid t0).events).sum = rows.length := by
  obtain ⟨st1, evE, heq, hsrc1, ⟨destRows, hdst1⟩, hengs, hpvE, hisE, hpmiE⟩ :=
    transfer_data_to_loopFinish st config tid t0 hsrceng hdesteng rows hsrc (by omega)
  rw [heq]
  have hge1 : get_engine st1 config.source_db = .ok () := by
    unfold get_engine
    rw [hengs]
    have hm : config.source_db ∈ st.engines := by simpa using hsrceng
    simp [hm]
  have hdeng1 : st1.engines.contains config.destination_db = true := by
    rw [hengs]
    exact hdesteng
  have hfuel : rows.length ≤ 0 + rows.length * config.batch_size := by
    have hmul := Nat.le_mul_of_pos_right rows.length
      (show 0 < config.batch_size by omega)
    omega
  obtain ⟨e1, e2, e3, e4⟩ := copyLoop_exact config rows hne hB rows.length 0 0 st1
    destRows hsrc1 hdst1 hdeng1 hfuel
  simp only [loopFinish, hge1, e1]
  refine ⟨?_, ?_, ?_, ?_, ?_⟩
  · simp [completeStatus]
  · simp only [completeStatus]
    rw [e2]
    omega
  · simp [completeStatus, initialStatus]
  · rw [insertSizes_append, hisE, List.nil_append, e3]
    rfl
  · rw [insertSizes_append, hisE, List.nil_append, e4]
    rfl

/-- Witness for C8 on the three-row fixture with batch size 2. -/
theorem batch_completeness_witness :
    (1 ≤ cfgEx.batch_size
      ∧ stEx.engines.contains "source" = true
      ∧ stEx.engines.contains "destination" = true
      ∧ (("source", "users") ≠ ("destination", "users_copy"))
      ∧ lookupTable stEx "source" "users" = some rowsEx
      ∧ 1 ≤ rowsEx.length)
    ∧ ((transfer_data stEx cfgEx "txn_w8" 0).status.status = "completed"
      ∧ (transfer_data stEx cfgEx "txn_w8" 0).status.records_transferred = rowsEx.length
      ∧ (transfer_data stEx cfgEx "txn_w8" 0).status.total_records = rowsEx.length
      ∧ (insertSizes (transfer_data stEx cfgEx "txn_w8" 0).events).length
          = (rowsEx.length + cfgEx.batch_size - 1) / cfgEx.batch_size
      ∧ (insertSizes (transfer_data stEx cfgEx "txn_w8" 0).events).sum = rowsEx.length) :=
  ⟨⟨by decide, rfl, rfl, by decide, rfl, by decide⟩,
    batch_completeness stEx cfgEx "txn_w8" 0 (by decide) rfl rfl (by decide)
      rowsEx rfl (by decide)⟩

end Dataflow
